import Mathlib

/-!
Shallow embedding of the client-side event/filter/map synchronization core
of the `bora` frontend (src/frontend/src/events.js, src/frontend/src/pins.js,
auth.js, filters.js), together with theorems settling the specification
claims about it.

JavaScript values are modelled by the inductive `JsVal`; `JSON.parse` is
modelled by an executable recursive-descent parser (`jsonParse`).  Numeric
literals are modelled at integer precision: fraction/exponent forms are not
needed by any claim and make the parser fail, in which case `safeParse`
keeps the original string exactly as the source's catch branch does.
-/

namespace Bora

/-- Model of a JavaScript value (as used by the frontend code). -/
inductive JsVal : Type where
  | null : JsVal
  | undefined : JsVal
  | bool : Bool → JsVal
  | num : Int → JsVal
  | str : String → JsVal
  | arr : List JsVal → JsVal
  | obj : List (String × JsVal) → JsVal
  deriving Inhabited

namespace JsVal

/-- JavaScript truthiness of a value. -/
def truthy : JsVal → Bool
  | .null => false
  | .undefined => false
  | .bool b => b
  | .num n => n != 0
  | .str s => s ≠ ""
  | .arr _ => true
  | .obj _ => true

/-- JavaScript property read `o[k]`: missing properties and reads on
non-objects yield `undefined`. -/
def getField : JsVal → String → JsVal
  | .obj fs, k => ((fs.filter (fun p => p.1 = k)).getLast?.map Prod.snd).getD .undefined
  | _, _ => .undefined

/-- JavaScript property write `o[k] = v` on an object's field list:
an existing key is updated in place, a new key is appended. -/
def setField (fs : List (String × JsVal)) (k : String) (v : JsVal) :
    List (String × JsVal) :=
  if fs.any (fun p => p.1 = k) then
    fs.map (fun p => if p.1 = k then (k, v) else p)
  else fs ++ [(k, v)]

/-- The field list produced by the spread `{ ...raw }` for an object-typed
value (arrays spread to index-keyed fields, as in JavaScript). -/
def spreadFields : JsVal → List (String × JsVal)
  | .obj fs => fs
  | .arr xs => (xs.enum.map (fun p => (toString p.1, p.2)))
  | _ => []

/-- `typeof v === "object"` (true for objects, arrays and `null`). -/
def isObjectTypeof : JsVal → Bool
  | .obj _ => true
  | .arr _ => true
  | .null => true
  | _ => false

end JsVal

/-! ### JSON.parse model -/

/-- One JSON string escape. Returns the decoded character and the rest. -/
def jsonUnescape (cs : List Char) : Option (Char × List Char) :=
  match cs with
  | '"' :: rest => some ('"', rest)
  | '\\' :: rest => some ('\\', rest)
  | '/' :: rest => some ('/', rest)
  | 'b' :: rest => some ('\x08', rest)
  | 'f' :: rest => some ('\x0c', rest)
  | 'n' :: rest => some ('\n', rest)
  | 'r' :: rest => some ('\r', rest)
  | 't' :: rest => some ('\t', rest)
  | 'u' :: a :: b :: c :: d :: rest =>
    let hex? (ch : Char) : Option Nat :=
      if '0' ≤ ch ∧ ch ≤ '9' then some (ch.toNat - '0'.toNat)
      else if 'a' ≤ ch ∧ ch ≤ 'f' then some (ch.toNat - 'a'.toNat + 10)
      else if 'A' ≤ ch ∧ ch ≤ 'F' then some (ch.toNat - 'A'.toNat + 10)
      else none
    match hex? a, hex? b, hex? c, hex? d with
    | some ha, some hb, some hc, some hd =>
      some (Char.ofNat (((ha * 16 + hb) * 16 + hc) * 16 + hd), rest)
    | _, _, _, _ => none
  | _ => none

/-- Parse the body of a JSON string literal (after the opening quote). -/
def jsonParseStringBody (fuel : Nat) (cs : List Char) :
    Option (String × List Char) :=
  match fuel with
  | 0 => none
  | fuel + 1 =>
    match cs with
    | [] => none
    | '"' :: rest => some ("", rest)
    | '\\' :: rest =>
      match jsonUnescape rest with
      | some (c, rest') =>
        match jsonParseStringBody fuel rest' with
        | some (s, rest'') => some (String.mk (c :: s.toList), rest'')
        | none => none
      | none => none
    | c :: rest =>
      if c.toNat < 32 then none
      else
        match jsonParseStringBody fuel rest with
        | some (s, rest') => some (String.mk (c :: s.toList), rest')
        | none => none

/-- JSON whitespace skipping. -/
def jsonSkipWs (cs : List Char) : List Char :=
  cs.dropWhile (fun c => c == ' ' || c == '\t' || c == '\n' || c == '\r')

/-- Parse a run of decimal digits. -/
def jsonParseDigits (cs : List Char) : Option (Nat × List Char) :=
  let digits := cs.takeWhile Char.isDigit
  if digits.isEmpty then none
  else some (digits.foldl (fun acc c => acc * 10 + (c.toNat - '0'.toNat)) 0,
             cs.dropWhile Char.isDigit)

/-- Parse an unsigned JSON integer literal (no leading zeros, and no
fraction/exponent: such literals are outside this integer-precision model
and make the parse fail). -/
def jsonParseNum (cs : List Char) : Option (Nat × List Char) :=
  match jsonParseDigits cs with
  | some (n, rest) =>
    -- reject a leading zero followed by more digits
    match cs with
    | '0' :: c :: _ => if c.isDigit then none else numTail n rest
    | _ => numTail n rest
  | none => none
where
  numTail (n : Nat) (rest : List Char) : Option (Nat × List Char) :=
    match rest with
    | '.' :: _ => none
    | 'e' :: _ => none
    | 'E' :: _ => none
    | _ => some (n, rest)

mutual

/-- Parse one JSON value from the front of the input. -/
def jsonParseVal (fuel : Nat) (cs : List Char) : Option (JsVal × List Char) :=
  match fuel with
  | 0 => none
  | fuel + 1 =>
    match jsonSkipWs cs with
    | 't' :: 'r' :: 'u' :: 'e' :: rest => some (.bool true, rest)
    | 'f' :: 'a' :: 'l' :: 's' :: 'e' :: rest => some (.bool false, rest)
    | 'n' :: 'u' :: 'l' :: 'l' :: rest => some (.null, rest)
    | '"' :: rest =>
      match jsonParseStringBody fuel rest with
      | some (s, rest') => some (.str s, rest')
      | none => none
    | '[' :: rest =>
      (match jsonSkipWs rest with
       | ']' :: rest' => some (.arr [], rest')
       | _ =>
         match jsonParseElems fuel rest with
         | some (xs, rest') => some (.arr xs, rest')
         | none => none)
    | '{' :: rest =>
      (match jsonSkipWs rest with
       | '}' :: rest' => some (.obj [], rest')
       | _ =>
         match jsonParseMembers fuel rest with
         | some (fs, rest') => some (.obj fs, rest')
         | none => none)
    | '-' :: rest =>
      (match jsonParseNum rest with
       | some (n, rest') => some (.num (-(n : Int)), rest')
       | none => none)
    | cs' =>
      (match jsonParseNum cs' with
       | some (n, rest') => some (.num (n : Int), rest')
       | none => none)

/-- Parse a non-empty comma-separated list of array elements plus `]`. -/
def jsonParseElems (fuel : Nat) (cs : List Char) :
    Option (List JsVal × List Char) :=
  match fuel with
  | 0 => none
  | fuel + 1 =>
    match jsonParseVal fuel cs with
    | some (v, rest) =>
      (match jsonSkipWs rest with
       | ',' :: rest' =>
         (match jsonParseElems fuel rest' with
          | some (xs, rest'') => some (v :: xs, rest'')
          | none => none)
       | ']' :: rest' => some ([v], rest')
       | _ => none)
    | none => none

/-- Parse a non-empty comma-separated list of object members plus `}`. -/
def jsonParseMembers (fuel : Nat) (cs : List Char) :
    Option (List (String × JsVal) × List Char) :=
  match fuel with
  | 0 => none
  | fuel + 1 =>
    match jsonSkipWs cs with
    | '"' :: rest =>
      (match jsonParseStringBody fuel rest with
       | some (k, rest') =>
         (match jsonSkipWs rest' with
          | ':' :: rest'' =>
            (match jsonParseVal fuel rest'' with
             | some (v, rest3) =>
               (match jsonSkipWs rest3 with
                | ',' :: rest4 =>
                  (match jsonParseMembers fuel rest4 with
                   | some (fs, rest5) => some ((k, v) :: fs, rest5)
                   | none => none)
                | '}' :: rest4 => some ([(k, v)], rest4)
                | _ => none)
             | none => none)
          | _ => none)
       | none => none)
    | _ => none

end

/-- Model of `JSON.parse`: the whole input (with surrounding whitespace)
must be consumed. `none` stands for a thrown `SyntaxError`. -/
def jsonParse (s : String) : Option JsVal :=
  match jsonParseVal (s.length + 1) s.toList with
  | some (v, rest) => if jsonSkipWs rest = [] then some v else none
  | none => none

/-! ### pins.js: safeParse and normaliseProps -/

/-- pins.js `safeParse(val)`: `null`/`undefined` are returned as-is,
non-strings are returned as-is, and a string is `JSON.parse`d with the
original string returned unchanged when parsing throws. -/
def safeParse (val : JsVal) : JsVal :=
  match val with
  | .null => .null
  | .undefined => .undefined
  | .str s =>
    (match jsonParse s with
     | some v => v
     | none => .str s)
  | v => v

/-- The update a single line `p.k = safeParse(p.k) || dflt` of
`normaliseProps` performs on the field list. -/
def normaliseField (fs : List (String × JsVal)) (k : String) (dflt : JsVal) :
    List (String × JsVal) :=
  let v := safeParse (JsVal.getField (.obj fs) k)
  JsVal.setField fs k (if v.truthy then v else dflt)

/-- The four field updates of `normaliseProps`, in source order. -/
def normaliseFields (fs : List (String × JsVal)) : List (String × JsVal) :=
  normaliseField
    (normaliseField
      (normaliseField
        (normaliseField fs "category" (.obj []))
        "tags" (.arr []))
      "city" (.obj []))
    "interaction_counts" (.obj [])

/-- pins.js `normaliseProps(raw)`: non-objects (JavaScript falsy values or
values whose `typeof` is not `"object"`) yield `{}`; otherwise the object is
shallow-copied and the four nested fields are decoded, falsy results being
replaced by empty defaults. -/
def normaliseProps (raw : JsVal) : JsVal :=
  if !raw.truthy || !raw.isObjectTypeof then .obj []
  else .obj (normaliseFields raw.spreadFields)

/-! ### events.js: filter state and query translation -/

/-- events.js `filters` object (the mutable filter state), modelled as a
value. `dateFilter = none` models `null`/`undefined`. -/
structure FilterState where
  categories : List String
  dateFilter : Option String
  isFree : Bool
  searchQ : String
  deriving Repr, DecidableEq

/-- A query-string parameter value: either a literal string or the ISO
rendering of an (epoch-)day number as produced by
`toISOString().split("T")[0]`. Days are counted from 1970-01-01. -/
inductive PVal : Type where
  | s : String → PVal
  | day : Nat → PVal
  deriving Repr, DecidableEq

/-- JavaScript `Date.prototype.getDay` on an epoch day number:
day 0 (1970-01-01) was a Thursday (`getDay() = 4`); 0 is Sunday. -/
def jsGetDay (d : Nat) : Nat := (d + 4) % 7

/-- The Friday computed by the `"weekend"` branch of `fetchEvents`:
`fri = today + ((5 - day + 7) % 7 || 7)`. -/
def weekendStart (today : Nat) : Nat :=
  let day : Int := jsGetDay today
  let off : Int := (5 - day + 7) % 7
  let off : Int := if off = 0 then 7 else off
  today + off.toNat

/-- The date parameters `fetchEvents` adds for a given `filters.dateFilter`
and anchor day `today` (events.js lines 37–57).  The final `else if
(filters.dateFilter)` tests JavaScript truthiness, so the empty string adds
no parameters. -/
def dateParams (df : Option String) (today : Nat) : List (String × PVal) :=
  match df with
  | none => []
  | some s =>
    if s = "today" then
      [("start_date", .day today), ("end_date", .day today)]
    else if s = "weekend" then
      let fri := weekendStart today
      [("start_date", .day fri), ("end_date", .day (fri + 2))]
    else if s = "week" then
      [("start_date", .day today), ("end_date", .day (today + 7))]
    else if s ≠ "" then
      [("start_date", .s s), ("end_date", .s s)]
    else []

/-- The full parameter list assembled by `fetchEvents` (events.js lines
25–57), in insertion order. -/
def fetchEventsParams (fs : FilterState) (today : Nat) : List (String × PVal) :=
  (if fs.categories.length = 1 then
    [("category", PVal.s (fs.categories.headD ""))]
   else [])
  ++ (if fs.isFree then [("is_free", PVal.s "true")] else [])
  ++ (if fs.searchQ ≠ "" then [("q", PVal.s fs.searchQ)] else [])
  ++ dateParams fs.dateFilter today

/-- The `category` server-side parameter of `fetchEvents`, when present. -/
def categoryParam (fs : FilterState) : Option String :=
  if fs.categories.length = 1 then some (fs.categories.headD "") else none

/-! ### events.js: fetch pipeline and client-side category merge -/

/-- A GeoJSON feature as delivered by the backend. The identifier may sit
at the feature level (`fid`) rather than inside the property bag. -/
structure Feature where
  fid : JsVal
  geometry : JsVal
  properties : JsVal

/-- A GeoJSON FeatureCollection body. `features = none` models a body with
no `features` array. -/
structure GeoJson where
  ftype : String
  features : Option (List Feature)

/-- `{ type: "FeatureCollection", features: [] }`, the fallback value
returned by `fetchEvents` on any failure. -/
def emptyFC : GeoJson := { ftype := "FeatureCollection", features := some [] }

/-- The outcome of the `fetch` call inside `fetchEvents`: a network-level
rejection, or a response with a status and (when the body parses) a body. -/
inductive FetchOutcome : Type where
  | networkError : FetchOutcome
  | response : Nat → Option GeoJson → FetchOutcome

/-- What `fetchEvents` produces from a given fetch outcome (events.js lines
61–70): the returned collection and whether the error toast was shown. -/
structure FetchResult where
  value : GeoJson
  errorToast : Bool

/-- events.js `fetchEvents` response handling: `!resp.ok` throws into the
surrounding catch, as does a body that fails to parse; the catch shows the
error toast and returns the empty collection. -/
def fetchEventsRun (o : FetchOutcome) : FetchResult :=
  match o with
  | .networkError => { value := emptyFC, errorToast := true }
  | .response status body =>
    if 200 ≤ status ∧ status ≤ 299 then
      match body with
      | some g => { value := g, errorToast := false }
      | none => { value := emptyFC, errorToast := true }
    else { value := emptyFC, errorToast := true }

/-- The predicate of the client-side multi-category filter (events.js lines
82–85): keep a feature iff the normalized properties' `category?.slug` is a
member of the selected category list. -/
def multiCatPred (cats : List String) (f : Feature) : Bool :=
  let props := if f.properties.truthy then f.properties else .obj []
  let cat := (normaliseProps props).getField "category"
  let slug :=
    match cat with   -- `cat?.slug`: optional chaining on null/undefined
    | .null => JsVal.undefined
    | .undefined => JsVal.undefined
    | c => c.getField "slug"
  match slug with    -- `Array.prototype.includes` with string elements
  | .str s => cats.contains s
  | _ => false

/-- The two outputs of `loadAndRenderEvents`: the dataset handed to
`updateMapSource` and the feature list handed to `renderPins`. -/
structure RenderResult where
  mapDataset : GeoJson
  markerInput : List Feature

/-- events.js `loadAndRenderEvents` (lines 76–91), as a function of the
filter state and the collection returned by `fetchEvents`. -/
def loadAndRenderEvents (fs : FilterState) (geojson : GeoJson) : RenderResult :=
  let features := geojson.features.getD []
  let features :=
    if fs.categories.length > 1 then features.filter (multiCatPred fs.categories)
    else features
  { mapDataset := { geojson with features := some features },
    markerInput := features }

/-! ### events.js: event detail view -/

/-- The observable outcome of a call to `openEventDetail`. -/
structure DetailOutcome where
  sidebarRevealed : Bool
  contentRendered : Bool
  requestsIssued : Nat
  deriving Repr, DecidableEq

/-- events.js `openEventDetail` (lines 96–115): properties are normalised,
and when the normalised `id` is falsy the function logs an error and
returns before the sidebar is revealed or the content populated; no
backend request is issued either way during the call. -/
def openEventDetail (rawData : JsVal) : DetailOutcome :=
  let p := normaliseProps rawData
  let eventId := p.getField "id"
  if !eventId.truthy then
    { sidebarRevealed := false, contentRendered := false, requestsIssued := 0 }
  else
    { sidebarRevealed := true, contentRendered := true, requestsIssued := 0 }

/-- The interaction-button click handler registered by `openEventDetail`
(events.js lines 228–242): returns the backend URL posted to, if any.
`idStr` is the string the DOM dataset carries for `data-event-id`. -/
def interactionClick (loggedIn : Bool) (idStr : String) : Option String :=
  if !loggedIn then none
  else if idStr = "" ∨ idStr = "undefined" then none
  else some ("/api/events/" ++ idStr ++ "/interact/")

/-! ### events.js: tag set of the creation draft -/

/-- Collapse every run of whitespace into a single `'-'`
(`.replace(/\s+/g, "-")`); the flag records whether the previous character
was part of a whitespace run. -/
def collapseWs : Bool → List Char → List Char
  | _, [] => []
  | inRun, c :: rest =>
    if c.isWhitespace then
      if inRun then collapseWs true rest
      else '-' :: collapseWs true rest
    else c :: collapseWs false rest

/-- `String.prototype.trim` on a character list. -/
def trimChars (l : List Char) : List Char :=
  ((l.dropWhile Char.isWhitespace).reverse.dropWhile Char.isWhitespace).reverse

/-- events.js `addTag` normalisation:
`val.trim().toLowerCase().replace(/\s+/g, "-")` (ASCII case mapping). -/
def normalizeTag (val : String) : String :=
  String.mk (collapseWs false ((trimChars val.toList).map Char.toLower))

/-- An operation on the creation draft's tag set: the `addTag` handler or a
remove-tag button click (`tagSet.delete`). -/
inductive TagOp : Type where
  | add : String → TagOp
  | remove : String → TagOp

/-- One step on the tag set, modelled as a duplicate-free list in insertion
order (JavaScript `Set` semantics). `addTag` inserts only when the
normalised tag is truthy (non-empty) and the set has fewer than 5 tags. -/
def applyTagOp (s : List String) : TagOp → List String
  | .add val =>
    let tag := normalizeTag val
    if tag ≠ "" ∧ s.length < 5 then (if tag ∈ s then s else s ++ [tag])
    else s
  | .remove t => s.erase t

/-- The tag set after a sequence of operations starting from the empty set. -/
def runTagOps (ops : List TagOp) : List String := ops.foldl applyTagOp []

/-! ### events.js: creation form submission -/

/-- Observable outcome of `submitCreateEvent` for the aspects the claims
mention. -/
structure SubmitOutcome where
  requestIssued : Bool
  locationErrorShown : Bool
  modalOpen : Bool
  submitDisabled : Bool
  deriving Repr, DecidableEq

/-- events.js `submitCreateEvent` (lines 501–588) as a function of the two
hidden location inputs (empty string models a missing selection, as the
inputs are reset to `""`) and of whether the backend accepts the request.
The submit button is disabled on entry; on the missing-location path it is
re-enabled before the early return, and on every other path by the
`finally` block. -/
def submitCreateEvent (lat lng : String) (respOk : Bool) : SubmitOutcome :=
  if lat = "" ∨ lng = "" then
    { requestIssued := false, locationErrorShown := true,
      modalOpen := true, submitDisabled := false }
  else if respOk then
    { requestIssued := true, locationErrorShown := false,
      modalOpen := false, submitDisabled := false }
  else
    { requestIssued := true, locationErrorShown := false,
      modalOpen := true, submitDisabled := false }

/-! ### auth.js: session manager (`apiFetch`, `refreshAccessToken`, `logout`)

The async control flow is modelled as an event loop.  `apiFetch`'s
`logout()` call is **not awaited** in the source (`} else { logout(); }`),
so `logout`'s synchronous prefix — reading the tokens and issuing its own
`apiFetch` of the logout endpoint — runs before `apiFetch` returns the
original 401, while `clearTokens()` sits in `logout`'s continuation, which
resumes as a microtask when that inner `apiFetch` resolves.  The scheduler
therefore drains the microtask queue before delivering the next network
completion (a microtask resumption always precedes the next network
round-trip), and network completions are delivered in issue order. -/

/-- The token pair held in durable storage. -/
structure AuthSession where
  access : Option String
  refresh : Option String
  deriving Repr, DecidableEq

/-- The backend's behaviour, fixed per scenario: statuses for first and
retried attempts per endpoint, and the refresh endpoint's behaviour. -/
structure AuthWorld where
  origStatus : Nat
  origRetryStatus : Nat
  logoutStatus : Nat
  logoutRetryStatus : Nat
  refreshOk : Bool
  newAccess : String
  newRefresh : Option String
  deriving Repr, DecidableEq

/-- Which URL an `apiFetch` frame is requesting. -/
inductive ReqUrl : Type where
  | orig : ReqUrl
  | logoutUrl : ReqUrl
  deriving Repr, DecidableEq

/-- Who awaits a given `apiFetch` promise: the external caller of the
original request, or a `logout` frame (whose continuation runs
`clearTokens()`; `logout` itself is fire-and-forget, awaited by nobody). -/
inductive Cont : Type where
  | toCaller : Cont
  | toLogout : Cont
  deriving Repr, DecidableEq

/-- A fetch in flight: its URL, whether it is the once-retried attempt made
after a successful refresh, and the continuation its `apiFetch` resolves. -/
structure NetCall where
  url : ReqUrl
  retry : Bool
  cont : Cont
  deriving Repr, DecidableEq

/-- The event-loop state: session storage, observable counters, the
response the external caller has received (if any), the microtask queue of
pending promise resumptions, and the FIFO queue of fetches in flight. -/
structure LoopState where
  session : AuthSession
  refreshAttempts : Nat
  origRequests : Nat
  logoutRequests : Nat
  callerResponse : Option Nat
  micro : List (Cont × Nat)
  net : List NetCall
  deriving Repr, DecidableEq

/-- The status the world returns for a URL (`retry = true` for the second
attempt made after a successful refresh). -/
def respStatus (w : AuthWorld) (url : ReqUrl) (retry : Bool) : Nat :=
  match url, retry with
  | .orig, false => w.origStatus
  | .orig, true => w.origRetryStatus
  | .logoutUrl, false => w.logoutStatus
  | .logoutUrl, true => w.logoutRetryStatus

/-- Issue a `fetch`: count the request and place its completion at the back
of the network queue. -/
def issueFetch (url : ReqUrl) (retry : Bool) (cont : Cont) (st : LoopState) :
    LoopState :=
  match url with
  | .orig => { st with origRequests := st.origRequests + 1,
                       net := st.net ++ [⟨url, retry, cont⟩] }
  | .logoutUrl => { st with logoutRequests := st.logoutRequests + 1,
                            net := st.net ++ [⟨url, retry, cont⟩] }

/-- `clearTokens()`. -/
def clearTokensRun (st : LoopState) : LoopState :=
  { st with session := { access := none, refresh := none } }

/-- auth.js `refreshAccessToken`: returns `false` immediately when no
refresh token exists; otherwise posts to the refresh endpoint, persisting
the new pair on success (keeping the old refresh token when the server does
not rotate it) and returning `false` on any failure. -/
def refreshRun (w : AuthWorld) (st : LoopState) : Bool × LoopState :=
  match st.session.refresh with
  | none => (false, st)
  | some r =>
    let st := { st with refreshAttempts := st.refreshAttempts + 1 }
    if w.refreshOk then
      (true, { st with session :=
        { access := some w.newAccess, refresh := some (w.newRefresh.getD r) } })
    else (false, st)

/-- The synchronous prefix of auth.js `logout()`: with a refresh token in
storage and a logged-in session it issues the best-effort logout request
through `apiFetch` and suspends awaiting it (`clearTokens()` runs in its
`Cont.toLogout` resumption); otherwise `clearTokens()` runs right away. -/
def logoutPrefix (st : LoopState) : LoopState :=
  if st.session.refresh.isSome ∧ st.session.access.isSome then
    issueFetch .logoutUrl false .toLogout st
  else clearTokensRun st

/-- auth.js `apiFetch` logic after `await fetch` resolves (lines 167–180 of
the concatenated module): on a first-attempt 401 with a refresh token in
storage, refresh and either reissue the request once (its response will be
resolved to the same awaiter whatever its status) or, on refresh failure,
fire `logout()` without awaiting it and resolve the original 401 — the
resolution joins the microtask queue after `logout`'s prefix has run. -/
def processResponse (w : AuthWorld) (c : NetCall) (st : LoopState) : LoopState :=
  let status := respStatus w c.url c.retry
  if c.retry = false ∧ status = 401 ∧ st.session.refresh.isSome then
    match refreshRun w st with
    | (true, st) => issueFetch c.url true c.cont st
    | (false, st) =>
      let st := logoutPrefix st
      { st with micro := st.micro ++ [(c.cont, status)] }
  else { st with micro := st.micro ++ [(c.cont, status)] }

/-- Resuming an awaiter when an `apiFetch` promise resolves: the external
caller receives the response; a `logout` frame runs `clearTokens()` (and
itself resolves to nobody). -/
def runMicro (m : Cont × Nat) (st : LoopState) : LoopState :=
  match m.1 with
  | .toCaller => { st with callerResponse := some m.2 }
  | .toLogout => clearTokensRun st

/-- One scheduler step: drain a microtask if any, else deliver the next
network completion, else halt (`none`). -/
def loopStep (w : AuthWorld) (st : LoopState) : Option LoopState :=
  match st.micro with
  | m :: rest => some (runMicro m { st with micro := rest })
  | [] =>
    match st.net with
    | c :: rest => some (processResponse w c { st with net := rest })
    | [] => none

/-- Run the event loop for at most `fuel` steps. -/
def loopRun : Nat → AuthWorld → LoopState → LoopState
  | 0, _, st => st
  | fuel + 1, w, st =>
    match loopStep w st with
    | some st' => loopRun fuel w st'
    | none => st

/-- The state right after an external caller invokes `apiFetch` on the
original URL: one fetch issued, nothing else pending. -/
def apiFetchStart (s : AuthSession) : LoopState :=
  issueFetch .orig false .toCaller
    { session := s, refreshAttempts := 0, origRequests := 0, logoutRequests := 0,
      callerResponse := none, micro := [], net := [] }

/-! ### Concrete sample data and scenario worlds used by witnesses and
counterexamples -/

/-- Sample features for the C1 witness: category arrives as a serialized
JSON string, as GeoJSON properties do. -/
def featMusic : Feature :=
  { fid := .num 1, geometry := .null,
    properties := .obj [("id", .num 1),
      ("category", .str "\x7b\"slug\": \"music\"\x7d")] }

def featSports : Feature :=
  { fid := .num 2, geometry := .null,
    properties := .obj [("id", .num 2),
      ("category", .str "\x7b\"slug\": \"sports\"\x7d")] }

def featFood : Feature :=
  { fid := .num 3, geometry := .null,
    properties := .obj [("id", .num 3),
      ("category", .str "\x7b\"slug\": \"food\"\x7d")] }

def sampleCollection : GeoJson :=
  { ftype := "FeatureCollection", features := some [featMusic, featSports, featFood] }

def twoCatFilters : FilterState :=
  { categories := ["music", "sports"], dateFilter := none, isFree := false, searchQ := "" }

def oneCatFilters : FilterState :=
  { categories := ["music"], dateFilter := none, isFree := false, searchQ := "" }

/-- The world of the failing scenario: the original request and the logout
endpoint both answer 401 and the refresh endpoint fails. -/
def badWorld : AuthWorld :=
  { origStatus := 401, origRetryStatus := 401, logoutStatus := 401,
    logoutRetryStatus := 401, refreshOk := false, newAccess := "newtok",
    newRefresh := none }

/-- A logged-in session holding a stale access token and a refresh token. -/
def staleSession : AuthSession :=
  { access := some "stale", refresh := some "r1" }

/-- A world where the refresh endpoint works and the retried original
request succeeds. -/
def goodWorld : AuthWorld :=
  { origStatus := 401, origRetryStatus := 200, logoutStatus := 204,
    logoutRetryStatus := 204, refreshOk := true, newAccess := "fresh",
    newRefresh := none }

/-- A "plain structure" in the sense of the spec: an already-decoded array
or object (as opposed to a serialized string or a scalar). -/
def isPlainStructure : JsVal → Bool
  | .arr _ => true
  | .obj _ => true
  | _ => false

/-- Already-plain sample properties for the C9 witness. -/
def plainProps : JsVal :=
  JsVal.obj [("id", .num 7), ("category", .obj [("slug", .str "music")]),
    ("tags", .arr [.str "rock"]), ("city", .obj []),
    ("interaction_counts", .obj [("GOING", .num 2)])]

/-! ## Helper lemmas -/

/-- The Friday targeted by the `"weekend"` filter is strictly after the
anchor, at most a week away, falls on a Friday, and is a full week away
when the anchor is itself a Friday. -/
theorem weekendStart_spec (today : Nat) :
    today < weekendStart today ∧ weekendStart today ≤ today + 7 ∧
    jsGetDay (weekendStart today) = 5 ∧
    (jsGetDay today = 5 → weekendStart today = today + 7) := by
  have hcase : (today + 4) % 7 = 0 ∨ (today + 4) % 7 = 1 ∨ (today + 4) % 7 = 2 ∨
      (today + 4) % 7 = 3 ∨ (today + 4) % 7 = 4 ∨ (today + 4) % 7 = 5 ∨
      (today + 4) % 7 = 6 := by omega
  simp only [weekendStart, jsGetDay]
  rcases hcase with h | h | h | h | h | h | h <;>
    simp only [h] <;> norm_num <;> omega

end Bora

namespace Bora

/-! ## Claim C4 — date resolution of the Query Translator -/

/-- C4 counterexample: the claim says any non-null value other than the
three keywords is used literally as both start and end, but the code's
`else if (filters.dateFilter)` tests JavaScript truthiness, so the empty
string (non-null) produces no date parameters at all. -/
theorem dateParams_empty_string_counterexample :
    dateParams (some "") 0 ≠
      [("start_date", PVal.s ""), ("end_date", PVal.s "")] := by
  decide

/-- C4 (amended): with a fixed anchor day, `"today"` yields start = end =
today; `"weekend"` yields the strictly-forward Friday (a week ahead when
today is Friday) with end = start + 2; `"week"` yields today and today + 7;
any other non-null **non-empty** value is used literally as both start and
end; null **or the empty string** yields no date parameters. -/
theorem dateParams_resolution (today : Nat) :
    dateParams none today = []
  ∧ dateParams (some "today") today =
      [("start_date", PVal.day today), ("end_date", PVal.day today)]
  ∧ (dateParams (some "weekend") today =
      [("start_date", PVal.day (weekendStart today)),
       ("end_date", PVal.day (weekendStart today + 2))]
     ∧ today < weekendStart today ∧ weekendStart today ≤ today + 7
     ∧ jsGetDay (weekendStart today) = 5
     ∧ (jsGetDay today = 5 → weekendStart today = today + 7))
  ∧ dateParams (some "week") today =
      [("start_date", PVal.day today), ("end_date", PVal.day (today + 7))]
  ∧ (∀ s : String, s ≠ "today" → s ≠ "weekend" → s ≠ "week" → s ≠ "" →
      dateParams (some s) today = [("start_date", PVal.s s), ("end_date", PVal.s s)])
  ∧ dateParams (some "") today = [] := by
  obtain ⟨h1, h2, h3, h4⟩ := weekendStart_spec today
  refine ⟨rfl, rfl, ⟨rfl, h1, h2, h3, h4⟩, rfl, ?_, rfl⟩
  intro s hs1 hs2 hs3 hs4
  simp [dateParams, hs1, hs2, hs3, hs4]

/-- C4 witness: the amended theorem evaluated at a concrete anchor and a
literal ISO date. -/
theorem dateParams_resolution_witness :
    dateParams (some "2025-12-25") 20432 =
      [("start_date", PVal.s "2025-12-25"), ("end_date", PVal.s "2025-12-25")] := by
  have h := (dateParams_resolution 20432).2.2.2.2.1 "2025-12-25"
    (by decide) (by decide) (by decide) (by decide)
  exact h

/-! ## Claim C5 — weekend resolution determinism -/

/-- C5: for every anchor day, the `"weekend"` filter resolves to a
Friday-to-Sunday range whose start is a Friday strictly in the future
(hence in particular the range is strictly in the future, or starts today
when today is a Friday, as the testable property words it). -/
theorem weekend_forward_looking (today : Nat) :
    dateParams (some "weekend") today =
      [("start_date", PVal.day (weekendStart today)),
       ("end_date", PVal.day (weekendStart today + 2))]
  ∧ jsGetDay (weekendStart today) = 5
  ∧ today < weekendStart today := by
  obtain ⟨h1, _, h3, _⟩ := weekendStart_spec today
  exact ⟨rfl, h3, h1⟩

/-! ## Claim C6 — fetchEvents never throws past its boundary -/

/-- C6: for every fetch outcome, `fetchEventsRun` is total (a Lean
function), returns the parsed body without a toast on a success status with
a parsable body, and returns the empty FeatureCollection with a
user-visible error toast on a non-success status or a network failure. -/
theorem fetchEvents_error_boundary (o : FetchOutcome) :
    (∀ status body g, o = .response status body →
      200 ≤ status → status ≤ 299 → body = some g →
      fetchEventsRun o = { value := g, errorToast := false })
  ∧ (∀ status body, o = .response status body → ¬(200 ≤ status ∧ status ≤ 299) →
      fetchEventsRun o = { value := emptyFC, errorToast := true })
  ∧ (o = .networkError →
      fetchEventsRun o = { value := emptyFC, errorToast := true }) := by
  refine ⟨?_, ?_, ?_⟩
  · rintro status body g rfl hlo hhi rfl
    simp [fetchEventsRun, hlo, hhi]
  · rintro status body rfl hbad
    simp [fetchEventsRun, hbad]
  · rintro rfl
    rfl

/-- C6 witness: a 500 response yields the empty collection and the toast. -/
theorem fetchEvents_error_boundary_witness :
    fetchEventsRun (.response 500 none) = { value := emptyFC, errorToast := true } :=
  (fetchEvents_error_boundary _).2.1 500 none rfl (by omega)

/-! ## Claim C8 — submission precondition -/

/-- C8: with no selected location (either hidden input still the empty
string), submitting issues no backend request, shows the field-level
location error, leaves the modal open in every response world, and
re-enables the submit button before returning. -/
theorem submit_requires_location (lat lng : String) (respOk : Bool)
    (h : lat = "" ∨ lng = "") :
    submitCreateEvent lat lng respOk =
      { requestIssued := false, locationErrorShown := true,
        modalOpen := true, submitDisabled := false } := by
  unfold submitCreateEvent
  rw [if_pos h]

/-- C8 witness: concrete missing latitude. -/
theorem submit_requires_location_witness :
    submitCreateEvent "" "-51.2177" true =
      { requestIssued := false, locationErrorShown := true,
        modalOpen := true, submitDisabled := false } :=
  submit_requires_location "" "-51.2177" true (Or.inl rfl)

/-! ## Claim C3 — detail view without a resolvable id -/

/-- C3 counterexample: for properties with no id, the claim says the detail
panel is still revealed and populated; the code instead logs an error and
returns before revealing anything. -/
theorem openEventDetail_no_id_counterexample :
    ¬ ((openEventDetail (JsVal.obj [("title", JsVal.str "Rock Night")])).sidebarRevealed = true
     ∧ (openEventDetail (JsVal.obj [("title", JsVal.str "Rock Night")])).contentRendered = true) := by
  decide

/-- C3 (amended): when the normalised properties carry no resolvable
(truthy) id, `openEventDetail` returns early: the panel is neither revealed
nor populated and no backend request is attempted; independently, the
interaction-button handler never issues a request when the button's id is
empty or the literal string "undefined". -/
theorem openEventDetail_no_id (raw : JsVal)
    (h : ((normaliseProps raw).getField "id").truthy = false) :
    openEventDetail raw =
      { sidebarRevealed := false, contentRendered := false, requestsIssued := 0 }
  ∧ (∀ loggedIn : Bool,
      interactionClick loggedIn "" = none ∧ interactionClick loggedIn "undefined" = none) := by
  constructor
  · unfold openEventDetail
    simp [h]
  · intro loggedIn
    cases loggedIn <;> simp [interactionClick]

/-- C3 witness: a concrete id-less property bag. -/
theorem openEventDetail_no_id_witness :
    openEventDetail (JsVal.obj []) =
      { sidebarRevealed := false, contentRendered := false, requestsIssued := 0 }
  ∧ interactionClick true "undefined" = none := by
  have h := openEventDetail_no_id (JsVal.obj []) (by decide)
  exact ⟨h.1, (h.2 true).2⟩

/-! ## Claim C7 — tag set invariant -/

theorem char_toLower_idem (c : Char) : c.toLower.toLower = c.toLower := by
  by_cases h : c.toNat ≥ 65 ∧ c.toNat ≤ 90
  · have hv : (c.toNat + 32).isValidChar := Or.inl (by omega)
    have ht : (Char.ofNat (c.toNat + 32)).toNat = c.toNat + 32 := by
      unfold Char.ofNat; rw [dif_pos hv]; rfl
    have h1 : c.toLower = Char.ofNat (c.toNat + 32) := by
      unfold Char.toLower; rw [if_pos h]
    rw [h1]
    unfold Char.toLower
    rw [if_neg (by rw [ht]; omega)]
  · have h1 : c.toLower = c := by unfold Char.toLower; rw [if_neg h]
    rw [h1]; exact h1

theorem collapseWs_no_ws (b : Bool) (l : List Char) :
    ∀ c ∈ collapseWs b l, c.isWhitespace = false := by
  induction l generalizing b with
  | nil => intro c hc; simp [collapseWs] at hc
  | cons x rest ih =>
    intro c hc
    unfold collapseWs at hc
    by_cases hx : x.isWhitespace
    · rw [if_pos hx] at hc
      cases b with
      | true => simp only [if_pos rfl] at hc; exact ih true c hc
      | false =>
        simp only [Bool.false_eq_true, if_neg] at hc
        rcases List.mem_cons.mp hc with rfl | hc
        · decide
        · exact ih true c hc
    · rw [if_neg hx] at hc
      rcases List.mem_cons.mp hc with rfl | hc
      · simpa using hx
      · exact ih false c hc

theorem collapseWs_mem (b : Bool) (l : List Char) :
    ∀ c ∈ collapseWs b l, c = '-' ∨ c ∈ l := by
  induction l generalizing b with
  | nil => intro c hc; simp [collapseWs] at hc
  | cons x rest ih =>
    intro c hc
    unfold collapseWs at hc
    by_cases hx : x.isWhitespace
    · rw [if_pos hx] at hc
      cases b with
      | true =>
        simp only [if_pos rfl] at hc
        rcases ih true c hc with h | h
        · exact Or.inl h
        · exact Or.inr (List.mem_cons_of_mem _ h)
      | false =>
        simp only [Bool.false_eq_true, if_neg] at hc
        rcases List.mem_cons.mp hc with rfl | hc
        · exact Or.inl rfl
        · rcases ih true c hc with h | h
          · exact Or.inl h
          · exact Or.inr (List.mem_cons_of_mem _ h)
    · rw [if_neg hx] at hc
      rcases List.mem_cons.mp hc with rfl | hc
      · exact Or.inr (List.mem_cons_self c rest)
      · rcases ih false c hc with h | h
        · exact Or.inl h
        · exact Or.inr (List.mem_cons_of_mem _ h)

theorem collapseWs_eq_self (b : Bool) (l : List Char)
    (h : ∀ c ∈ l, c.isWhitespace = false) : collapseWs b l = l := by
  induction l generalizing b with
  | nil => rfl
  | cons x rest ih =>
    unfold collapseWs
    rw [if_neg (by simp [h x (List.mem_cons_self x rest)])]
    rw [ih false (fun c hc => h c (List.mem_cons_of_mem _ hc))]

theorem dropWhile_ws_eq_self (l : List Char)
    (h : ∀ c ∈ l, c.isWhitespace = false) :
    l.dropWhile Char.isWhitespace = l := by
  cases l with
  | nil => rfl
  | cons x rest =>
    rw [List.dropWhile_cons, if_neg (by simp [h x (List.mem_cons_self x rest)])]

theorem trimChars_eq_self (l : List Char)
    (h : ∀ c ∈ l, c.isWhitespace = false) : trimChars l = l := by
  unfold trimChars
  rw [dropWhile_ws_eq_self l h]
  rw [dropWhile_ws_eq_self l.reverse (fun c hc => h c (List.mem_reverse.mp hc))]
  exact List.reverse_reverse l

theorem map_fixed {α : Type} (f : α → α) (l : List α)
    (h : ∀ a ∈ l, f a = a) : l.map f = l := by
  induction l with
  | nil => rfl
  | cons x rest ih =>
    rw [List.map_cons, h x (List.mem_cons_self x rest),
        ih (fun a ha => h a (List.mem_cons_of_mem _ ha))]

/-- The `addTag` normalisation is idempotent: its output contains no
whitespace, is already lower-case, and has no whitespace runs left. -/
theorem normalizeTag_idem (v : String) :
    normalizeTag (normalizeTag v) = normalizeTag v := by
  unfold normalizeTag
  have hch : ∀ c ∈ collapseWs false ((trimChars v.toList).map Char.toLower),
      c.isWhitespace = false := collapseWs_no_ws _ _
  have hmk : (String.mk (collapseWs false ((trimChars v.toList).map Char.toLower))).toList
      = collapseWs false ((trimChars v.toList).map Char.toLower) := rfl
  rw [hmk, trimChars_eq_self _ hch]
  have hmap : (collapseWs false ((trimChars v.toList).map Char.toLower)).map Char.toLower
      = collapseWs false ((trimChars v.toList).map Char.toLower) := by
    apply map_fixed
    intro c hc
    rcases collapseWs_mem _ _ c hc with h | h
    · subst h; decide
    · rcases List.mem_map.mp h with ⟨c₀, _, rfl⟩
      exact char_toLower_idem c₀
  rw [hmap, collapseWs_eq_self _ _ hch]

/-- Every reachable tag set satisfies the draft invariant. -/
theorem tagOps_inv (ops : List TagOp) :
    (runTagOps ops).length ≤ 5 ∧ (runTagOps ops).Nodup ∧
    ∀ t ∈ runTagOps ops, normalizeTag t = t := by
  suffices h : ∀ (ops : List TagOp) (s : List String),
      s.length ≤ 5 → s.Nodup → (∀ t ∈ s, normalizeTag t = t) →
      (ops.foldl applyTagOp s).length ≤ 5 ∧ (ops.foldl applyTagOp s).Nodup ∧
      ∀ t ∈ ops.foldl applyTagOp s, normalizeTag t = t by
    exact h ops [] (by simp) List.nodup_nil (by simp)
  intro ops
  induction ops with
  | nil => intro s h1 h2 h3; exact ⟨h1, h2, h3⟩
  | cons op rest ih =>
    intro s h1 h2 h3
    apply ih
    all_goals
      cases op with
      | add val =>
        simp only [applyTagOp]
        by_cases hg : normalizeTag val ≠ "" ∧ s.length < 5
        · rw [if_pos hg]
          by_cases hm : normalizeTag val ∈ s
          · rw [if_pos hm]; first
              | exact h1
              | exact h2
              | exact h3
          · rw [if_neg hm]; first
              | (simp only [List.length_append, List.length_cons, List.length_nil]; omega)
              | (rw [List.nodup_append]; exact ⟨h2, List.nodup_singleton _,
                  by intro a ha hb; rw [List.mem_singleton.mp hb] at ha; exact hm ha⟩)
              | (intro t ht
                 rcases List.mem_append.mp ht with h | h
                 · exact h3 t h
                 · rw [List.mem_singleton.mp h]; exact normalizeTag_idem val)
        · rw [if_neg hg]; first
            | exact h1
            | exact h2
            | exact h3
      | remove t =>
        simp only [applyTagOp]
        first
          | exact le_trans (List.Sublist.length_le (List.erase_sublist t s)) h1
          | exact h2.erase t
          | (intro u hu; exact h3 u (List.mem_of_mem_erase hu))

/-- C7: after any sequence of tag add/remove operations the set has at most
5 tags, no duplicates, and only normalized (lower-case hyphenated,
idempotently re-normalizable) members; a 6th add is rejected, "Live Music "
normalizes to "live-music", and adding a tag that normalizes to an existing
member does not grow the set. -/
theorem tagSet_invariant (ops : List TagOp) :
    ((runTagOps ops).length ≤ 5 ∧ (runTagOps ops).Nodup ∧
      ∀ t ∈ runTagOps ops, normalizeTag t = t)
  ∧ (∀ (s : List String) (v : String), s.length = 5 → applyTagOp s (.add v) = s)
  ∧ normalizeTag "Live Music " = "live-music"
  ∧ (∀ (s : List String) (v : String), normalizeTag v ∈ s →
      (applyTagOp s (.add v)).length = s.length) := by
  refine ⟨tagOps_inv ops, ?_, rfl, ?_⟩
  · intro s v h5
    simp only [applyTagOp]
    rw [if_neg (by omega)]
  · intro s v hm
    simp only [applyTagOp]
    by_cases hg : normalizeTag v ≠ "" ∧ s.length < 5
    · rw [if_pos hg, if_pos hm]
    · rw [if_neg hg]

/-- C7 witness: a concrete run — five tags admitted, the sixth rejected,
duplicates merged, "Live Music " normalized. -/
theorem tagSet_invariant_witness :
    (runTagOps [.add "Live Music ", .add "live music", .add "Rock", .add "Jazz",
        .add "Folk", .add "MPB", .add "Indie"]).length ≤ 5
  ∧ applyTagOp ["a", "b", "c", "d", "e"] (.add "sixth") = ["a", "b", "c", "d", "e"]
  ∧ normalizeTag "Live Music " = "live-music" := by
  have h := tagSet_invariant [.add "Live Music ", .add "live music", .add "Rock",
    .add "Jazz", .add "Folk", .add "MPB", .add "Indie"]
  exact ⟨h.1.1, h.2.1 ["a", "b", "c", "d", "e"] "sixth" rfl, h.2.2.1⟩

/-! ## Claim C1 — category filter merge correctness -/

/-- C1: the server-side category parameter is present exactly when one
category is selected (and equals it); with zero selected categories the
fetched features are rendered unfiltered; with two or more, the rendered
set is the server result restricted to features whose normalized category
slug belongs to the selected set, and the map dataset and the marker-render
input are that same filtered list. -/
theorem categoryFilterMerge (fs : FilterState) (g : GeoJson) :
    (∀ c : String, fs.categories = [c] → categoryParam fs = some c)
  ∧ (fs.categories.length ≠ 1 → categoryParam fs = none)
  ∧ (fs.categories = [] →
      (loadAndRenderEvents fs g).markerInput = g.features.getD [] ∧
      (loadAndRenderEvents fs g).mapDataset.features = some (g.features.getD []))
  ∧ (2 ≤ fs.categories.length →
      (loadAndRenderEvents fs g).markerInput =
        (g.features.getD []).filter (multiCatPred fs.categories) ∧
      (loadAndRenderEvents fs g).mapDataset.features =
        some ((g.features.getD []).filter (multiCatPred fs.categories))) := by
  refine ⟨?_, ?_, ?_, ?_⟩
  · intro c h
    simp [categoryParam, h]
  · intro h
    simp [categoryParam, h]
  · intro h
    constructor <;> simp [loadAndRenderEvents, h]
  · intro h
    constructor <;>
      · simp only [loadAndRenderEvents]
        rw [if_pos (by omega)]







/-- C1 witness: with two selected categories the rendered set keeps exactly
the music and sports features; with one selected category the server
parameter equals it. -/
theorem categoryFilterMerge_witness :
    (loadAndRenderEvents twoCatFilters sampleCollection).markerInput = [featMusic, featSports]
  ∧ categoryParam oneCatFilters = some "music" := by
  constructor
  · rw [((categoryFilterMerge twoCatFilters sampleCollection).2.2.2 (by decide)).1]
    rfl
  · exact (categoryFilterMerge oneCatFilters sampleCollection).1 "music" rfl

/-! ## Claim C2 — session refresh boundary -/

/-- Once the event loop has halted, further fuel changes nothing. -/
theorem loopRun_halted (w : AuthWorld) (st : LoopState)
    (h : loopStep w st = none) : ∀ n : Nat, loopRun n w st = st := by
  intro n
  cases n with
  | zero => rfl
  | succ n =>
    show (match loopStep w st with
          | some st' => loopRun n w st'
          | none => st) = st
    rw [h]

/-- Fuel splits: running `m + n` steps is running `m` then `n`. -/
theorem loopRun_add (w : AuthWorld) (m n : Nat) (st : LoopState) :
    loopRun (m + n) w st = loopRun n w (loopRun m w st) := by
  induction m generalizing st with
  | zero => rw [Nat.zero_add]; rfl
  | succ m ih =>
    rw [Nat.succ_add]
    show (match loopStep w st with
          | some st' => loopRun (m + n) w st'
          | none => st) =
        loopRun n w (match loopStep w st with
          | some st' => loopRun m w st'
          | none => st)
    cases h : loopStep w st with
    | some st' => exact ih st'
    | none => exact (loopRun_halted w st h n).symm

/-- In `goodWorld` the claim's intended behaviour holds: the single 401
triggers exactly one refresh attempt and one retry of the original request,
the caller receives the retry's response, no logout request is made, and
the loop halts. -/
theorem apiFetch_good_path :
    (loopRun 10 goodWorld (apiFetchStart staleSession)).refreshAttempts = 1
  ∧ (loopRun 10 goodWorld (apiFetchStart staleSession)).origRequests = 2
  ∧ (loopRun 10 goodWorld (apiFetchStart staleSession)).logoutRequests = 0
  ∧ (loopRun 10 goodWorld (apiFetchStart staleSession)).callerResponse = some 200
  ∧ loopStep goodWorld (loopRun 10 goodWorld (apiFetchStart staleSession)) = none := by
  refine ⟨by decide, by decide, by decide, by decide, by decide⟩

/-- C2 (code bug): tracing a single 401 through `badWorld` (refresh fails,
the logout endpoint answers 401 to the stale bearer token), the caller
receives the original 401 immediately, but because `apiFetch` fires
`logout()` without awaiting it, the logout request is issued **before**
`clearTokens()` runs; its 401 then finds the refresh token still in storage
and triggers a **second** refresh attempt and a reentrant second logout
round, after which `clearTokens()` has run and the cascade stops — in
total two refresh attempts and two logout requests for one user-level 401,
with the session cleared and the loop halted (stable under any extra
fuel).  The claim's "exactly one token-refresh attempt" and "two
sequential 401s after a failed refresh do not recurse" are both violated;
the session-clearing itself does eventually happen. -/
theorem apiFetch_second_refresh_bug :
    (loopRun 10 badWorld (apiFetchStart staleSession)).refreshAttempts = 2
  ∧ (loopRun 10 badWorld (apiFetchStart staleSession)).logoutRequests = 2
  ∧ (loopRun 10 badWorld (apiFetchStart staleSession)).origRequests = 1
  ∧ (loopRun 10 badWorld (apiFetchStart staleSession)).callerResponse = some 401
  ∧ (loopRun 10 badWorld (apiFetchStart staleSession)).session =
      { access := none, refresh := none }
  ∧ (∀ extra : Nat, loopRun (10 + extra) badWorld (apiFetchStart staleSession) =
      loopRun 10 badWorld (apiFetchStart staleSession)) := by
  refine ⟨by decide, by decide, by decide, by decide, by decide, ?_⟩
  intro extra
  rw [loopRun_add badWorld 10 extra (apiFetchStart staleSession)]
  exact loopRun_halted badWorld _ (by decide) extra

/-! ## Field-level lemmas for normaliseProps (claims C9 and C10) -/


theorem safeParse_plain (v : JsVal) (h : isPlainStructure v = true) :
    safeParse v = v := by
  cases v <;> simp_all [isPlainStructure, safeParse]

theorem plain_truthy (v : JsVal) (h : isPlainStructure v = true) :
    v.truthy = true := by
  cases v <;> simp_all [isPlainStructure, JsVal.truthy]

theorem setField_mem_self (fs : List (String × JsVal)) (k : String) (v : JsVal) :
    ∀ p ∈ JsVal.setField fs k v, p.1 = k → p = (k, v) := by
  intro p hp hpk
  unfold JsVal.setField at hp
  split at hp
  · obtain ⟨q, hq, rfl⟩ := List.mem_map.mp hp
    by_cases hqk : q.1 = k
    · simp [hqk]
    · simp only [if_neg hqk] at hpk ⊢
      exact absurd hpk hqk
  · rcases List.mem_append.mp hp with h | h
    · next hany =>
      exfalso
      exact hany (List.any_eq_true.mpr ⟨p, h, by simp [hpk]⟩)
    · exact List.mem_singleton.mp h

theorem setField_mem_ne (fs : List (String × JsVal)) (k : String) (v : JsVal)
    (k' : String) (hne : k' ≠ k) :
    ∀ p : String × JsVal, p.1 = k' → (p ∈ JsVal.setField fs k v ↔ p ∈ fs) := by
  intro p hpk
  unfold JsVal.setField
  split
  · constructor
    · intro hp
      obtain ⟨q, hq, hfq⟩ := List.mem_map.mp hp
      by_cases hqk : q.1 = k
      · rw [if_pos hqk] at hfq
        rw [← hfq] at hpk
        exact absurd (show k = k' from hpk) (Ne.symm hne)
      · rw [if_neg hqk] at hfq
        exact hfq ▸ hq
    · intro hp
      refine List.mem_map.mpr ⟨p, hp, ?_⟩
      rw [if_neg (by rw [hpk]; exact hne)]
  · constructor
    · intro hp
      rcases List.mem_append.mp hp with h | h
      · exact h
      · rw [List.mem_singleton.mp h] at hpk
        exact absurd (show k = k' from hpk) (Ne.symm hne)
    · intro hp
      exact List.mem_append.mpr (Or.inl hp)

theorem setField_any_self (fs : List (String × JsVal)) (k : String) (v : JsVal) :
    (JsVal.setField fs k v).any (fun p => p.1 = k) = true := by
  unfold JsVal.setField
  split
  · next hany =>
    obtain ⟨q, hq, hqk⟩ := List.any_eq_true.mp hany
    exact List.any_eq_true.mpr
      ⟨(k, v), List.mem_map.mpr ⟨q, hq, by simp_all⟩, by simp⟩
  · exact List.any_eq_true.mpr ⟨(k, v), List.mem_append.mpr (Or.inr (by simp)), by simp⟩

theorem setField_any_ne (fs : List (String × JsVal)) (k : String) (v : JsVal)
    (k' : String) (hne : k' ≠ k)
    (h : fs.any (fun p => p.1 = k') = true) :
    (JsVal.setField fs k v).any (fun p => p.1 = k') = true := by
  obtain ⟨q, hq, hqk⟩ := List.any_eq_true.mp h
  have hq' : q.1 = k' := by simpa using hqk
  exact List.any_eq_true.mpr
    ⟨q, (setField_mem_ne fs k v k' hne q hq').mpr hq, hqk⟩

theorem setField_id (fs : List (String × JsVal)) (k : String) (v : JsVal)
    (hany : fs.any (fun p => p.1 = k) = true)
    (hconst : ∀ p ∈ fs, p.1 = k → p.2 = v) :
    JsVal.setField fs k v = fs := by
  unfold JsVal.setField
  rw [if_pos hany]
  apply map_fixed
  intro p hp
  by_cases hpk : p.1 = k
  · rw [if_pos hpk]
    rw [← hpk, ← hconst p hp hpk]
  · rw [if_neg hpk]

theorem getField_const (fs : List (String × JsVal)) (k : String) (w : JsVal)
    (hany : fs.any (fun p => p.1 = k) = true)
    (hconst : ∀ p ∈ fs, p.1 = k → p.2 = w) :
    JsVal.getField (.obj fs) k = w := by
  unfold JsVal.getField
  obtain ⟨q, hq, hqk⟩ := List.any_eq_true.mp hany
  have hne : fs.filter (fun p => p.1 = k) ≠ [] := by
    intro hnil
    exact absurd hqk (by simpa using List.filter_eq_nil_iff.mp hnil q hq)
  cases hlast : (fs.filter (fun p => p.1 = k)).getLast? with
  | none => exact absurd (List.getLast?_eq_none_iff.mp hlast) hne
  | some p =>
    have hp := List.mem_of_mem_getLast? hlast
    have hpmem := (List.mem_filter.mp hp).1
    have hpk : p.1 = k := by simpa using (List.mem_filter.mp hp).2
    simp [hlast, hconst p hpmem hpk]

theorem getField_setField_self (fs : List (String × JsVal)) (k : String) (v : JsVal) :
    JsVal.getField (.obj (JsVal.setField fs k v)) k = v := by
  apply getField_const _ _ _ (setField_any_self fs k v)
  intro p hp hpk
  rw [setField_mem_self fs k v p hp hpk]

theorem getField_setField_ne (fs : List (String × JsVal)) (k : String) (v : JsVal)
    (k' : String) (hne : k' ≠ k) :
    JsVal.getField (.obj (JsVal.setField fs k v)) k' = JsVal.getField (.obj fs) k' := by
  have hmf : ∀ l : List (String × JsVal),
      (l.map (fun p => if p.1 = k then (k, v) else p)).filter (fun p => p.1 = k') =
      l.filter (fun p => p.1 = k') := by
    intro l
    induction l with
    | nil => rfl
    | cons q rest ih =>
      by_cases hqk : q.1 = k
      · simp only [List.map_cons, if_pos hqk, List.filter_cons]
        rw [if_neg (by simp [Ne.symm hne]), if_neg (by simp [hqk, Ne.symm hne]), ih]
      · simp only [List.map_cons, if_neg hqk, List.filter_cons]
        by_cases hqk' : q.1 = k'
        · rw [if_pos (by simp [hqk']), if_pos (by simp [hqk']), ih]
        · rw [if_neg (by simp [hqk']), if_neg (by simp [hqk']), ih]
  simp only [JsVal.getField]
  have hfilter : (JsVal.setField fs k v).filter (fun p => p.1 = k') =
      fs.filter (fun p => p.1 = k') := by
    unfold JsVal.setField
    split
    · exact hmf fs
    · rw [List.filter_append]
      have h1 : ([(k, v)].filter (fun p => p.1 = k')) = [] := by
        simp [Ne.symm hne]
      rw [h1, List.append_nil]
  rw [hfilter]

theorem getField_normaliseField_self (fs : List (String × JsVal)) (k : String) (d : JsVal) :
    JsVal.getField (.obj (normaliseField fs k d)) k =
      (if (safeParse (JsVal.getField (.obj fs) k)).truthy
       then safeParse (JsVal.getField (.obj fs) k) else d) := by
  unfold normaliseField
  exact getField_setField_self fs k _

theorem getField_normaliseField_ne (fs : List (String × JsVal)) (k : String) (d : JsVal)
    (k' : String) (hne : k' ≠ k) :
    JsVal.getField (.obj (normaliseField fs k d)) k' = JsVal.getField (.obj fs) k' := by
  unfold normaliseField
  exact getField_setField_ne fs k _ k' hne

theorem normaliseField_mem_self (fs : List (String × JsVal)) (k : String) (d : JsVal) :
    ∀ p ∈ normaliseField fs k d, p.1 = k →
      p = (k, if (safeParse (JsVal.getField (.obj fs) k)).truthy
              then safeParse (JsVal.getField (.obj fs) k) else d) := by
  unfold normaliseField
  exact setField_mem_self fs k _

theorem normaliseField_mem_ne (fs : List (String × JsVal)) (k : String) (d : JsVal)
    (k' : String) (hne : k' ≠ k) :
    ∀ p : String × JsVal, p.1 = k' → (p ∈ normaliseField fs k d ↔ p ∈ fs) := by
  unfold normaliseField
  exact setField_mem_ne fs k _ k' hne

theorem normaliseField_any_self (fs : List (String × JsVal)) (k : String) (d : JsVal) :
    (normaliseField fs k d).any (fun p => p.1 = k) = true := by
  unfold normaliseField
  exact setField_any_self fs k _

theorem normaliseField_any_ne (fs : List (String × JsVal)) (k : String) (d : JsVal)
    (k' : String) (hne : k' ≠ k)
    (h : fs.any (fun p => p.1 = k') = true) :
    (normaliseField fs k d).any (fun p => p.1 = k') = true := by
  unfold normaliseField
  exact setField_any_ne fs k _ k' hne h

theorem normaliseField_id (fs : List (String × JsVal)) (k : String) (d w : JsVal)
    (hany : fs.any (fun p => p.1 = k) = true)
    (hconst : ∀ p ∈ fs, p.1 = k → p.2 = w)
    (hplain : isPlainStructure w = true) :
    normaliseField fs k d = fs := by
  unfold normaliseField
  rw [getField_const fs k w hany hconst, safeParse_plain w hplain]
  show JsVal.setField fs k (if w.truthy = true then w else d) = fs
  rw [if_pos (plain_truthy w hplain)]
  exact setField_id fs k w hany hconst

/-- The value each of the four keys carries after the `normaliseProps`
field updates: the decoded value if truthy, else the key's empty default. -/
theorem normaliseFields_getField_eq (fs : List (String × JsVal)) :
    JsVal.getField (.obj (normaliseFields fs)) "category" =
      (if (safeParse (JsVal.getField (.obj fs) "category")).truthy
       then safeParse (JsVal.getField (.obj fs) "category") else .obj [])
  ∧ JsVal.getField (.obj (normaliseFields fs)) "tags" =
      (if (safeParse (JsVal.getField (.obj fs) "tags")).truthy
       then safeParse (JsVal.getField (.obj fs) "tags") else .arr [])
  ∧ JsVal.getField (.obj (normaliseFields fs)) "city" =
      (if (safeParse (JsVal.getField (.obj fs) "city")).truthy
       then safeParse (JsVal.getField (.obj fs) "city") else .obj [])
  ∧ JsVal.getField (.obj (normaliseFields fs)) "interaction_counts" =
      (if (safeParse (JsVal.getField (.obj fs) "interaction_counts")).truthy
       then safeParse (JsVal.getField (.obj fs) "interaction_counts") else .obj []) := by
  unfold normaliseFields
  set n1 := normaliseField fs "category" (JsVal.obj []) with hn1
  set n2 := normaliseField n1 "tags" (JsVal.arr []) with hn2
  set n3 := normaliseField n2 "city" (JsVal.obj []) with hn3
  refine ⟨?_, ?_, ?_, ?_⟩
  · rw [getField_normaliseField_ne n3 "interaction_counts" (JsVal.obj []) "category" (by decide),
        hn3, getField_normaliseField_ne n2 "city" (JsVal.obj []) "category" (by decide),
        hn2, getField_normaliseField_ne n1 "tags" (JsVal.arr []) "category" (by decide),
        hn1, getField_normaliseField_self fs "category" (JsVal.obj [])]
  · rw [getField_normaliseField_ne n3 "interaction_counts" (JsVal.obj []) "tags" (by decide),
        hn3, getField_normaliseField_ne n2 "city" (JsVal.obj []) "tags" (by decide),
        hn2, getField_normaliseField_self n1 "tags" (JsVal.arr []),
        hn1, getField_normaliseField_ne fs "category" (JsVal.obj []) "tags" (by decide)]
  · rw [getField_normaliseField_ne n3 "interaction_counts" (JsVal.obj []) "city" (by decide),
        hn3, getField_normaliseField_self n2 "city" (JsVal.obj []),
        hn2, getField_normaliseField_ne n1 "tags" (JsVal.arr []) "city" (by decide),
        hn1, getField_normaliseField_ne fs "category" (JsVal.obj []) "city" (by decide)]
  · rw [getField_normaliseField_self n3 "interaction_counts" (JsVal.obj []),
        hn3, getField_normaliseField_ne n2 "city" (JsVal.obj []) "interaction_counts" (by decide),
        hn2, getField_normaliseField_ne n1 "tags" (JsVal.arr []) "interaction_counts" (by decide),
        hn1, getField_normaliseField_ne fs "category" (JsVal.obj []) "interaction_counts" (by decide)]

theorem normaliseField_const_ne (fs : List (String × JsVal)) (k : String) (d : JsVal)
    (k' : String) (w : JsVal) (hne : k' ≠ k)
    (h : ∀ p ∈ fs, p.1 = k' → p.2 = w) :
    ∀ p ∈ normaliseField fs k d, p.1 = k' → p.2 = w := by
  intro p hp hpk
  exact h p ((normaliseField_mem_ne fs k d k' hne p hpk).mp hp) hpk

theorem normaliseField_const_self (fs : List (String × JsVal)) (k : String) (d w : JsVal)
    (hplain : isPlainStructure w = true)
    (hw : JsVal.getField (.obj fs) k = w) :
    ∀ p ∈ normaliseField fs k d, p.1 = k → p.2 = w := by
  intro p hp hpk
  rw [normaliseField_mem_self fs k d p hp hpk]
  show (if (safeParse (JsVal.getField (.obj fs) k)).truthy = true
        then safeParse (JsVal.getField (.obj fs) k) else d) = w
  rw [hw, safeParse_plain w hplain, if_pos (plain_truthy w hplain)]

/-- When the four nested fields are already plain structures, running the
field updates twice equals running them once. -/
theorem normaliseFields_idem_plain (fs : List (String × JsVal))
    (hcat : isPlainStructure (JsVal.getField (JsVal.obj fs) "category") = true)
    (htags : isPlainStructure (JsVal.getField (JsVal.obj fs) "tags") = true)
    (hcity : isPlainStructure (JsVal.getField (JsVal.obj fs) "city") = true)
    (hic : isPlainStructure (JsVal.getField (JsVal.obj fs) "interaction_counts") = true) :
    normaliseFields (normaliseFields fs) = normaliseFields fs := by
  have acat : (normaliseFields fs).any (fun p => p.1 = "category") = true := by
    unfold normaliseFields
    exact normaliseField_any_ne _ _ _ _ (by decide)
      (normaliseField_any_ne _ _ _ _ (by decide)
        (normaliseField_any_ne _ _ _ _ (by decide)
          (normaliseField_any_self _ _ _)))
  have atags : (normaliseFields fs).any (fun p => p.1 = "tags") = true := by
    unfold normaliseFields
    exact normaliseField_any_ne _ _ _ _ (by decide)
      (normaliseField_any_ne _ _ _ _ (by decide)
        (normaliseField_any_self _ _ _))
  have acity : (normaliseFields fs).any (fun p => p.1 = "city") = true := by
    unfold normaliseFields
    exact normaliseField_any_ne _ _ _ _ (by decide)
      (normaliseField_any_self _ _ _)
  have aic : (normaliseFields fs).any (fun p => p.1 = "interaction_counts") = true := by
    unfold normaliseFields
    exact normaliseField_any_self _ _ _
  have ccat : ∀ p ∈ normaliseFields fs, p.1 = "category" →
      p.2 = JsVal.getField (JsVal.obj fs) "category" := by
    unfold normaliseFields
    exact normaliseField_const_ne _ _ _ _ _ (by decide)
      (normaliseField_const_ne _ _ _ _ _ (by decide)
        (normaliseField_const_ne _ _ _ _ _ (by decide)
          (normaliseField_const_self _ _ _ _ hcat rfl)))
  have ctags : ∀ p ∈ normaliseFields fs, p.1 = "tags" →
      p.2 = JsVal.getField (JsVal.obj fs) "tags" := by
    unfold normaliseFields
    exact normaliseField_const_ne _ _ _ _ _ (by decide)
      (normaliseField_const_ne _ _ _ _ _ (by decide)
        (normaliseField_const_self _ _ _ _ htags
          (getField_normaliseField_ne _ _ _ _ (by decide))))
  have ccity : ∀ p ∈ normaliseFields fs, p.1 = "city" →
      p.2 = JsVal.getField (JsVal.obj fs) "city" := by
    unfold normaliseFields
    exact normaliseField_const_ne _ _ _ _ _ (by decide)
      (normaliseField_const_self _ _ _ _ hcity
        ((getField_normaliseField_ne _ _ _ _ (by decide)).trans
          (getField_normaliseField_ne _ _ _ _ (by decide))))
  have cic : ∀ p ∈ normaliseFields fs, p.1 = "interaction_counts" →
      p.2 = JsVal.getField (JsVal.obj fs) "interaction_counts" := by
    unfold normaliseFields
    exact normaliseField_const_self _ _ _ _ hic
      (((getField_normaliseField_ne _ _ _ _ (by decide)).trans
        (getField_normaliseField_ne _ _ _ _ (by decide))).trans
          (getField_normaliseField_ne _ _ _ _ (by decide)))
  calc normaliseFields (normaliseFields fs)
      = normaliseField
          (normaliseField
            (normaliseField
              (normaliseField (normaliseFields fs) "category" (JsVal.obj []))
              "tags" (JsVal.arr []))
            "city" (JsVal.obj []))
          "interaction_counts" (JsVal.obj []) := rfl
    _ = normaliseFields fs := by
        rw [normaliseField_id (normaliseFields fs) "category" (JsVal.obj [])
              (JsVal.getField (JsVal.obj fs) "category") acat ccat hcat,
            normaliseField_id (normaliseFields fs) "tags" (JsVal.arr [])
              (JsVal.getField (JsVal.obj fs) "tags") atags ctags htags,
            normaliseField_id (normaliseFields fs) "city" (JsVal.obj [])
              (JsVal.getField (JsVal.obj fs) "city") acity ccity hcity,
            normaliseField_id (normaliseFields fs) "interaction_counts" (JsVal.obj [])
              (JsVal.getField (JsVal.obj fs) "interaction_counts") aic cic hic]

/-! ## Claim C9 — idempotent normalization -/

/-- C9 counterexample: `normaliseProps` is not idempotent. When a nested
field is a serialized JSON string that itself decodes to another decodable
string — here `category` is the three-character string `"0"` — each
application decodes one more level (first to the string `0`, then to the
number `0`, which is falsy and becomes `{}`). -/
theorem normaliseProps_not_idempotent :
    normaliseProps (normaliseProps (JsVal.obj [("category", JsVal.str "\"0\"")])) ≠
      normaliseProps (JsVal.obj [("category", JsVal.str "\"0\"")]) := by
  intro h
  have h1 : normaliseProps (JsVal.obj [("category", JsVal.str "\"0\"")]) =
      JsVal.obj [("category", JsVal.str "0"), ("tags", JsVal.arr []),
        ("city", JsVal.obj []), ("interaction_counts", JsVal.obj [])] := rfl
  have h2 : normaliseProps (JsVal.obj [("category", JsVal.str "0"), ("tags", JsVal.arr []),
      ("city", JsVal.obj []), ("interaction_counts", JsVal.obj [])]) =
      JsVal.obj [("category", JsVal.obj []), ("tags", JsVal.arr []),
        ("city", JsVal.obj []), ("interaction_counts", JsVal.obj [])] := rfl
  rw [h1, h2] at h
  simp at h

/-- C9 (amended): for every input object whose four nested fields are
already plain structures (arrays/objects) rather than serialized strings,
normalization is a no-op on those fields, and normalizing twice equals
normalizing once; full idempotence fails in general (see the
counterexample). -/
theorem normaliseProps_plain_noop (raw : JsVal)
    (hcat : isPlainStructure (raw.getField "category") = true)
    (htags : isPlainStructure (raw.getField "tags") = true)
    (hcity : isPlainStructure (raw.getField "city") = true)
    (hic : isPlainStructure (raw.getField "interaction_counts") = true) :
    ((normaliseProps raw).getField "category" = raw.getField "category"
   ∧ (normaliseProps raw).getField "tags" = raw.getField "tags"
   ∧ (normaliseProps raw).getField "city" = raw.getField "city"
   ∧ (normaliseProps raw).getField "interaction_counts" = raw.getField "interaction_counts")
  ∧ normaliseProps (normaliseProps raw) = normaliseProps raw := by
  cases raw with
  | obj fs =>
    have e : normaliseProps (JsVal.obj fs) = JsVal.obj (normaliseFields fs) := rfl
    obtain ⟨g1, g2, g3, g4⟩ := normaliseFields_getField_eq fs
    refine ⟨⟨?_, ?_, ?_, ?_⟩, ?_⟩
    · rw [e, g1, safeParse_plain _ hcat, if_pos (plain_truthy _ hcat)]
    · rw [e, g2, safeParse_plain _ htags, if_pos (plain_truthy _ htags)]
    · rw [e, g3, safeParse_plain _ hcity, if_pos (plain_truthy _ hcity)]
    · rw [e, g4, safeParse_plain _ hic, if_pos (plain_truthy _ hic)]
    · rw [e]
      have e2 : normaliseProps (JsVal.obj (normaliseFields fs)) =
          JsVal.obj (normaliseFields (normaliseFields fs)) := rfl
      rw [e2, normaliseFields_idem_plain fs hcat htags hcity hic]
  | null => exact absurd hcat (by decide)
  | undefined => exact absurd hcat (by decide)
  | bool b => exact absurd hcat (by simp [JsVal.getField, isPlainStructure])
  | num n => exact absurd hcat (by simp [JsVal.getField, isPlainStructure])
  | str s => exact absurd hcat (by simp [JsVal.getField, isPlainStructure])
  | arr xs => exact absurd hcat (by simp [JsVal.getField, isPlainStructure])


/-- C9 witness: on an already-plain object, normalizing twice equals once
and the category field is untouched. -/
theorem normaliseProps_plain_noop_witness :
    normaliseProps (normaliseProps plainProps) = normaliseProps plainProps
  ∧ (normaliseProps plainProps).getField "category" = plainProps.getField "category" := by
  have h := normaliseProps_plain_noop plainProps (by decide) (by decide) (by decide) (by decide)
  exact ⟨h.2, h.1.1⟩

/-! ## Claim C10 — totality of normalization -/

theorem truthy_ite (v d : JsVal) (hd : d.truthy = true) :
    (if v.truthy then v else d).truthy = true := by
  split
  · assumption
  · exact hd

/-- C10 counterexample: the four nested fields are not always structural.
A category field holding the serialized number `"5"` decodes to the truthy
number `5`, which is kept as-is — the normalized `category` is not an
object. -/
theorem normaliseProps_field_type_counterexample :
    ¬ ∃ fs' : List (String × JsVal),
      (normaliseProps (JsVal.obj [("category", JsVal.str "5")])).getField "category" =
        JsVal.obj fs' := by
  rintro ⟨fs', h⟩
  have he : (normaliseProps (JsVal.obj [("category", JsVal.str "5")])).getField "category" =
      JsVal.num 5 := rfl
  rw [he] at h
  exact JsVal.noConfusion h

/-- C10 (amended): `normaliseProps` always returns an object without
throwing (non-object input yields the empty object); `safeParse` returns
the original string unchanged when JSON decoding fails; for truthy
object-typed inputs the four nested fields of the result are always truthy,
falsy decoded values being replaced by the empty defaults `{}`/`[]`/`{}`/`{}`
— but a truthy non-structural decode is kept as-is, so the fields are not
always object/array-typed (see the counterexample). -/
theorem normaliseProps_totality (v : JsVal) :
    (∃ fs, normaliseProps v = JsVal.obj fs)
  ∧ (v.truthy = false ∨ v.isObjectTypeof = false → normaliseProps v = JsVal.obj [])
  ∧ (∀ s : String, jsonParse s = none → safeParse (JsVal.str s) = JsVal.str s)
  ∧ (v.truthy = true → v.isObjectTypeof = true →
      ((normaliseProps v).getField "category").truthy = true
    ∧ ((normaliseProps v).getField "tags").truthy = true
    ∧ ((normaliseProps v).getField "city").truthy = true
    ∧ ((normaliseProps v).getField "interaction_counts").truthy = true)
  ∧ (v.truthy = true → v.isObjectTypeof = true →
      ((safeParse (JsVal.getField (JsVal.obj v.spreadFields) "category")).truthy = false →
        (normaliseProps v).getField "category" = JsVal.obj [])
    ∧ ((safeParse (JsVal.getField (JsVal.obj v.spreadFields) "tags")).truthy = false →
        (normaliseProps v).getField "tags" = JsVal.arr [])
    ∧ ((safeParse (JsVal.getField (JsVal.obj v.spreadFields) "city")).truthy = false →
        (normaliseProps v).getField "city" = JsVal.obj [])
    ∧ ((safeParse (JsVal.getField (JsVal.obj v.spreadFields) "interaction_counts")).truthy = false →
        (normaliseProps v).getField "interaction_counts" = JsVal.obj [])) := by
  obtain ⟨g1, g2, g3, g4⟩ := normaliseFields_getField_eq v.spreadFields
  refine ⟨?_, ?_, ?_, ?_, ?_⟩
  · by_cases hc : (!v.truthy || !v.isObjectTypeof) = true
    · exact ⟨[], by unfold normaliseProps; rw [if_pos hc]⟩
    · exact ⟨normaliseFields v.spreadFields, by unfold normaliseProps; rw [if_neg hc]⟩
  · intro h
    unfold normaliseProps
    rw [if_pos (by rcases h with h | h <;> simp [h])]
  · intro s hs
    simp [safeParse, hs]
  · intro h1 h2
    have e : normaliseProps v = JsVal.obj (normaliseFields v.spreadFields) := by
      unfold normaliseProps
      rw [if_neg (by simp [h1, h2])]
    refine ⟨?_, ?_, ?_, ?_⟩
    · rw [e, g1]; exact truthy_ite _ _ rfl
    · rw [e, g2]; exact truthy_ite _ _ rfl
    · rw [e, g3]; exact truthy_ite _ _ rfl
    · rw [e, g4]; exact truthy_ite _ _ rfl
  · intro h1 h2
    have e : normaliseProps v = JsVal.obj (normaliseFields v.spreadFields) := by
      unfold normaliseProps
      rw [if_neg (by simp [h1, h2])]
    refine ⟨?_, ?_, ?_, ?_⟩
    · intro hf; rw [e, g1, if_neg (by simp [hf])]
    · intro hf; rw [e, g2, if_neg (by simp [hf])]
    · intro hf; rw [e, g3, if_neg (by simp [hf])]
    · intro hf; rw [e, g4, if_neg (by simp [hf])]

/-- C10 witness: a non-object input yields the empty object, and an
unparsable string passes through `safeParse` unchanged. -/
theorem normaliseProps_totality_witness :
    normaliseProps (JsVal.str "oops") = JsVal.obj []
  ∧ safeParse (JsVal.str "not json") = JsVal.str "not json" := by
  have h := normaliseProps_totality (JsVal.str "oops")
  exact ⟨h.2.1 (Or.inr rfl), h.2.2.1 "not json" rfl⟩

end Bora
